import Mathlib

/-!
Verification of the pair-cointegration script (src/ML Algo/ml_algo.py) against its
specification.  The script fetches two closing-price series, forms their difference
(the spread) with pandas Series subtraction, and runs two unit-root tests (ADF and
Phillips-Perron) on the spread, declaring possible cointegration when a test's
p-value is strictly below the literal 0.3.

Dates are modelled as natural numbers (ordinal trading days), prices as rationals.
The external statistical routines (statsmodels `adfuller`, arch `PhillipsPerron`)
are not part of the repository; their numeric kernels are abstracted as function
parameters, and their failure behaviour on degenerate input is modelled from the
spec where noted.
-/

namespace MLAlgo

/-- A closing-price series: (date, price) pairs, dates ascending and unique. -/
abbrev PriceSeries := List (Nat × ℚ)

/-- Insert a date into a (sorted-unique) date list, keeping it sorted and
duplicate-free; used to build the union index that pandas alignment produces. -/
def insertDate (d : Nat) (l : List Nat) : List Nat :=
  if d ∈ l then l else List.orderedInsert (· ≤ ·) d l

/-- The union of two date indices, as pandas index union: every date present in
either operand, sorted ascending, without duplicates. -/
def unionDates (l1 l2 : List Nat) : List Nat := l1.foldr insertDate l2

/-- Value of the aligned difference at one date: the subtraction `a - b` when the
date carries a price in both series, and a missing value (NaN) otherwise. -/
def subAt (s1 s2 : PriceSeries) (d : Nat) : Option ℚ :=
  match s1.lookup d, s2.lookup d with
  | some a, some b => some (a - b)
  | _, _ => none

/-- Embeds line 84, `spread = stock1 - stock2`: pandas Series subtraction aligns
the two operands on the union of their date indices (outer alignment), producing
`price1 - price2` at dates present in both series and NaN at dates present in
only one of them. -/
def pandasSub (s1 s2 : PriceSeries) : List (Nat × Option ℚ) :=
  (unionDates (s1.map Prod.fst) (s2.map Prod.fst)).map (fun d => (d, subAt s1 s2 d))

/-- Which of the two unit-root tests raised an error. -/
inductive TestName
  | adf
  | pp
deriving DecidableEq

/-- Error taxonomy of the evaluator: the statistical routine could not produce a
result (the spec's NonComputableStatistic), tagged with the test that raised it. -/
inductive UnitRootError
  | nonComputableStatistic (source : TestName)
deriving DecidableEq

/-- A series with zero variance: every element equals the first (degenerate input
for a unit-root test). The empty series is vacuously degenerate. -/
def isConstantSeries (s : List ℚ) : Bool :=
  match s with
  | [] => true
  | x :: xs => xs.all (fun y => y == x)

/-- Modelled from the spec: the underlying unit-root routines (statsmodels
`adfuller`, arch `PhillipsPerron`) are external libraries, absent from src/.
Per the spec's failure semantics, on degenerate (zero-variance, i.e. constant)
input the routine cannot compute a statistic and fails with
NonComputableStatistic; otherwise it deterministically returns a
(statistic, p-value) pair, whose numeric content is abstracted as the
`kernel` parameter. -/
def unitRootRoutine (source : TestName) (kernel : List ℚ → ℚ × ℚ) (s : List ℚ) :
    Except UnitRootError (ℚ × ℚ) :=
  if isConstantSeries s then Except.error (UnitRootError.nonComputableStatistic source)
  else Except.ok (kernel s)

/-- Embeds `adf_test` (lines 43-49): run the ADF routine on the series and hand
its statistic and p-value back to the caller (exceptions propagate). -/
def adf_test (kernel : List ℚ → ℚ × ℚ) (s : List ℚ) : Except UnitRootError (ℚ × ℚ) :=
  unitRootRoutine TestName.adf kernel s

/-- Embeds `phillips_perron_test` (lines 51-56). -/
def phillips_perron_test (kernel : List ℚ → ℚ × ℚ) (s : List ℚ) :
    Except UnitRootError (ℚ × ℚ) :=
  unitRootRoutine TestName.pp kernel s

/-- The literal 0.3 appearing in the comparisons on lines 90 and 97. -/
def threshold : ℚ := 3 / 10

/-- Embeds the verdict expression `pvalue < 0.3` (lines 90 and 97): the spread is
declared (possibly) cointegrated exactly when the p-value is strictly below 0.3. -/
def isStationary (p : ℚ) : Bool := decide (p < threshold)

/-- The verdict rule at an arbitrary threshold; the script instantiates it at
`threshold` for both tests. -/
def verdictAt (t p : ℚ) : Bool := decide (p < t)

/-- The observable outcome of one run of the script's testing block: both tests'
statistics, p-values and verdicts. -/
structure PairReport where
  adfStat : ℚ
  adfPvalue : ℚ
  adfVerdict : Bool
  ppStat : ℚ
  ppPvalue : ℚ
  ppVerdict : Bool
deriving DecidableEq

/-- Embeds lines 88-100 of the script body: run the ADF test, derive its verdict,
then run the Phillips-Perron test and derive its verdict.  The two calls are
sequential and unguarded (no try/except anywhere in the script), so an exception
raised by either test propagates immediately and aborts the run. -/
def runPairTests (adfKernel ppKernel : List ℚ → ℚ × ℚ) (spread : List ℚ) :
    Except UnitRootError PairReport :=
  match adf_test adfKernel spread with
  | Except.error e => Except.error e
  | Except.ok (sA, pA) =>
    match phillips_perron_test ppKernel spread with
    | Except.error e => Except.error e
    | Except.ok (sP, pP) =>
      Except.ok (PairReport.mk sA pA (isStationary pA) sP pP (isStationary pP))

/-- The Phillips-Perron outcome recoverable from a finished run: its statistic and
p-value on success, its own error if PP itself raised, and nothing at all when
the run aborted inside the ADF test before PP was reached. -/
def ppOutcome (r : Except UnitRootError PairReport) :
    Option (Except UnitRootError (ℚ × ℚ)) :=
  match r with
  | Except.ok rep => some (Except.ok (rep.ppStat, rep.ppPvalue))
  | Except.error (UnitRootError.nonComputableStatistic TestName.pp) =>
      some (Except.error (UnitRootError.nonComputableStatistic TestName.pp))
  | Except.error (UnitRootError.nonComputableStatistic TestName.adf) => none

/-- A degenerate test kernel (constant statistic 0 and constant p-value `p`),
used to instantiate theorems at concrete inputs. -/
def constKernel (p : ℚ) : List ℚ → ℚ × ℚ := fun _ => (0, p)

/-- Column labels of the fetched DataFrame.  They stand for the pandas string
labels used in `fetch_stock_data`: close = Close, high = High, low = Low,
rollingMean = Rolling_Mean, rollingStd = Rolling_Std, zScore = Z_Score,
bollingerHigh = Bollinger_High, bollingerLow = Bollinger_Low, rsi = RSI,
sma50 = SMA_50, ema50 = EMA_50, macd = MACD, atr = ATR. -/
inductive ColName
  | close
  | high
  | low
  | openCol
  | volume
  | rollingMean
  | rollingStd
  | zScore
  | bollingerHigh
  | bollingerLow
  | rsi
  | sma50
  | ema50
  | macd
  | atr
deriving DecidableEq

/-- A DataFrame, modelled as its column store: each label maps to a date-indexed
column of rational values. -/
structure DataFrame where
  getColF : ColName → PriceSeries

/-- Read a column (`data['X']`). -/
def getCol (df : DataFrame) (c : ColName) : PriceSeries := df.getColF c

/-- Assign a column (`data['X'] = ...`): the named column is replaced, every
other column is untouched. -/
def setCol (df : DataFrame) (c : ColName) (v : PriceSeries) : DataFrame :=
  DataFrame.mk (fun m => if m = c then v else df.getColF m)

/-- The ten indicator computations delegated to pandas/ta in lines 25-38; they
are external collaborators, so each is abstracted as a function of the columns
it reads. -/
structure IndicatorLib where
  rollingMean : PriceSeries → PriceSeries
  rollingStd : PriceSeries → PriceSeries
  zScore : PriceSeries → PriceSeries → PriceSeries → PriceSeries
  bollingerHigh : PriceSeries → PriceSeries → PriceSeries
  bollingerLow : PriceSeries → PriceSeries → PriceSeries
  rsi : PriceSeries → PriceSeries
  sma50 : PriceSeries → PriceSeries
  ema50 : PriceSeries → PriceSeries
  macd : PriceSeries → PriceSeries
  atr : PriceSeries → PriceSeries → PriceSeries → PriceSeries

/-- Embeds `fetch_stock_data` (lines 21-40) after the external Yahoo fetch
(`data`, the raw frame, is an input here): the ten indicator columns are
assigned in source order, each computed from the columns the source reads at
that point, and the enriched frame is returned. -/
def fetch_stock_data (lib : IndicatorLib) (data : DataFrame) : DataFrame :=
  let d1 := setCol data ColName.rollingMean (lib.rollingMean (getCol data ColName.close))
  let d2 := setCol d1 ColName.rollingStd (lib.rollingStd (getCol d1 ColName.close))
  let d3 := setCol d2 ColName.zScore
    (lib.zScore (getCol d2 ColName.close) (getCol d2 ColName.rollingMean)
      (getCol d2 ColName.rollingStd))
  let d4 := setCol d3 ColName.bollingerHigh
    (lib.bollingerHigh (getCol d3 ColName.rollingMean) (getCol d3 ColName.rollingStd))
  let d5 := setCol d4 ColName.bollingerLow
    (lib.bollingerLow (getCol d4 ColName.rollingMean) (getCol d4 ColName.rollingStd))
  let d6 := setCol d5 ColName.rsi (lib.rsi (getCol d5 ColName.close))
  let d7 := setCol d6 ColName.sma50 (lib.sma50 (getCol d6 ColName.close))
  let d8 := setCol d7 ColName.ema50 (lib.ema50 (getCol d7 ColName.close))
  let d9 := setCol d8 ColName.macd (lib.macd (getCol d8 ColName.close))
  setCol d9 ColName.atr
    (lib.atr (getCol d9 ColName.high) (getCol d9 ColName.low) (getCol d9 ColName.close))

/-- The labels assigned by `fetch_stock_data`. -/
def indicatorCols : List ColName :=
  [ColName.rollingMean, ColName.rollingStd, ColName.zScore, ColName.bollingerHigh,
   ColName.bollingerLow, ColName.rsi, ColName.sma50, ColName.ema50, ColName.macd,
   ColName.atr]

/-- A trivial indicator library (every indicator empty), for concrete instances. -/
def emptyIndicatorLib : IndicatorLib :=
  IndicatorLib.mk (fun _ => []) (fun _ => []) (fun _ _ _ => []) (fun _ _ => [])
    (fun _ _ => []) (fun _ => []) (fun _ => []) (fun _ => []) (fun _ => [])
    (fun _ _ _ => [])

/-- A one-row raw frame (every column a single bar at date 0), for concrete
instances. -/
def oneRowFrame : DataFrame := DataFrame.mk (fun _ => [(0, 1)])

/-! ### Helper lemmas about the union index and lookups -/

theorem mem_insertDate (x d : Nat) (l : List Nat) :
    x ∈ insertDate d l ↔ x = d ∨ x ∈ l := by
  unfold insertDate
  split
  · rename_i h
    constructor
    · exact fun hx => Or.inr hx
    · rintro (rfl | hx)
      · exact h
      · exact hx
  · exact List.mem_orderedInsert _

theorem mem_unionDates (x : Nat) (l1 l2 : List Nat) :
    x ∈ unionDates l1 l2 ↔ x ∈ l1 ∨ x ∈ l2 := by
  induction l1 with
  | nil => simp [unionDates]
  | cons d t ih =>
    show x ∈ insertDate d (unionDates t l2) ↔ _
    rw [mem_insertDate, ih]
    simp [List.mem_cons, or_assoc]

theorem sorted_insertDate (d : Nat) (l : List Nat) (h : List.Sorted (· ≤ ·) l) :
    List.Sorted (· ≤ ·) (insertDate d l) := by
  unfold insertDate
  split
  · exact h
  · exact List.Sorted.orderedInsert d l h

theorem nodup_insertDate (d : Nat) (l : List Nat) (h : l.Nodup) :
    (insertDate d l).Nodup := by
  unfold insertDate
  split
  · exact h
  · rename_i hd
    exact ((List.perm_orderedInsert _ d l).nodup_iff).mpr (List.nodup_cons.mpr ⟨hd, h⟩)

theorem sorted_unionDates (l1 l2 : List Nat) (h : List.Sorted (· ≤ ·) l2) :
    List.Sorted (· ≤ ·) (unionDates l1 l2) := by
  induction l1 with
  | nil => exact h
  | cons d t ih => exact sorted_insertDate d _ ih

theorem nodup_unionDates (l1 l2 : List Nat) (h : l2.Nodup) :
    (unionDates l1 l2).Nodup := by
  induction l1 with
  | nil => exact h
  | cons d t ih => exact nodup_insertDate d _ ih

theorem chain'_lt_of_sorted_nodup (l : List Nat) (hs : List.Sorted (· ≤ ·) l)
    (hn : l.Nodup) : List.Chain' (· < ·) l := by
  rw [List.chain'_iff_pairwise]
  exact (List.Pairwise.and hs hn).imp (fun h => lt_of_le_of_ne h.1 h.2)

theorem sorted_of_chain'_lt (l : List Nat) (h : List.Chain' (· < ·) l) :
    List.Sorted (· ≤ ·) l := by
  rw [List.chain'_iff_pairwise] at h
  exact h.imp le_of_lt

theorem nodup_of_chain'_lt (l : List Nat) (h : List.Chain' (· < ·) l) : l.Nodup := by
  rw [List.chain'_iff_pairwise] at h
  exact h.imp ne_of_lt

theorem chain'_unionDates (l1 l2 : List Nat) (h2 : List.Chain' (· < ·) l2) :
    List.Chain' (· < ·) (unionDates l1 l2) :=
  chain'_lt_of_sorted_nodup _ (sorted_unionDates l1 l2 (sorted_of_chain'_lt l2 h2))
    (nodup_unionDates l1 l2 (nodup_of_chain'_lt l2 h2))

theorem insertDate_of_mem (d : Nat) (l : List Nat) (h : d ∈ l) : insertDate d l = l := by
  unfold insertDate
  exact if_pos h

theorem unionDates_of_subset (l1 l2 : List Nat) (h : ∀ d ∈ l1, d ∈ l2) :
    unionDates l1 l2 = l2 := by
  induction l1 with
  | nil => rfl
  | cons d t ih =>
    show insertDate d (unionDates t l2) = l2
    rw [ih (fun x hx => h x (List.mem_cons_of_mem d hx))]
    exact insertDate_of_mem d l2 (h d (List.mem_cons_self d t))

theorem length_insertDate_of_not_mem (d : Nat) (l : List Nat) (h : d ∉ l) :
    (insertDate d l).length = l.length + 1 := by
  unfold insertDate
  rw [if_neg h]
  exact List.orderedInsert_length _ l d

theorem length_unionDates_disjoint (l1 l2 : List Nat) (hnd : l1.Nodup)
    (hdisj : ∀ d ∈ l1, d ∉ l2) :
    (unionDates l1 l2).length = l1.length + l2.length := by
  induction l1 with
  | nil => simp [unionDates]
  | cons d t ih =>
    rw [List.nodup_cons] at hnd
    show (insertDate d (unionDates t l2)).length = _
    have hd : d ∉ unionDates t l2 := by
      rw [mem_unionDates]
      rintro (h | h)
      · exact hnd.1 h
      · exact hdisj d (List.mem_cons_self d t) h
    rw [length_insertDate_of_not_mem d _ hd,
      ih hnd.2 (fun x hx => hdisj x (List.mem_cons_of_mem d hx))]
    simp [List.length_cons]
    omega

theorem lookup_eq_none_of_not_mem (s : PriceSeries) (d : Nat)
    (h : d ∉ s.map Prod.fst) : s.lookup d = none := by
  induction s with
  | nil => rfl
  | cons p t ih =>
    obtain ⟨k, v⟩ := p
    simp only [List.map_cons, List.mem_cons, not_or] at h
    rw [List.lookup_cons, show (d == k) = false from beq_eq_false_iff_ne.mpr h.1]
    exact ih h.2

theorem lookup_eq_some_of_mem (s : PriceSeries) (d : Nat) (a : ℚ)
    (hnd : (s.map Prod.fst).Nodup) (h : (d, a) ∈ s) : s.lookup d = some a := by
  induction s with
  | nil => cases h
  | cons p t ih =>
    obtain ⟨k, v⟩ := p
    simp only [List.map_cons, List.nodup_cons] at hnd
    rcases List.mem_cons.mp h with heq | ht
    · injection heq with e1 e2
      subst e1
      subst e2
      rw [List.lookup_cons, show (d == d) = true from beq_self_eq_true d]
    · have hdk : d ≠ k := by
        intro he
        subst he
        exact hnd.1 (List.mem_map_of_mem Prod.fst ht)
      rw [List.lookup_cons, show (d == k) = false from beq_eq_false_iff_ne.mpr hdk]
      exact ih hnd.2 ht

theorem subAt_eq_some (s1 s2 : PriceSeries) (d : Nat) (a b : ℚ)
    (hnd1 : (s1.map Prod.fst).Nodup) (hnd2 : (s2.map Prod.fst).Nodup)
    (h1 : (d, a) ∈ s1) (h2 : (d, b) ∈ s2) : subAt s1 s2 d = some (a - b) := by
  unfold subAt
  rw [lookup_eq_some_of_mem s1 d a hnd1 h1, lookup_eq_some_of_mem s2 d b hnd2 h2]

theorem subAt_eq_none_left (s1 s2 : PriceSeries) (d : Nat)
    (h : d ∉ s1.map Prod.fst) : subAt s1 s2 d = none := by
  unfold subAt
  rw [lookup_eq_none_of_not_mem s1 d h]

theorem subAt_eq_none_right (s1 s2 : PriceSeries) (d : Nat)
    (h : d ∉ s2.map Prod.fst) : subAt s1 s2 d = none := by
  unfold subAt
  rw [lookup_eq_none_of_not_mem s2 d h]
  cases s1.lookup d <;> rfl

theorem pandasSub_keys (s1 s2 : PriceSeries) :
    (pandasSub s1 s2).map Prod.fst = unionDates (s1.map Prod.fst) (s2.map Prod.fst) := by
  unfold pandasSub
  rw [List.map_map, show (Prod.fst ∘ fun d : Nat => (d, subAt s1 s2 d)) = id from rfl,
    List.map_id]

theorem mem_pandasSub_iff (s1 s2 : PriceSeries) (d : Nat) (v : Option ℚ) :
    (d, v) ∈ pandasSub s1 s2 ↔
      d ∈ unionDates (s1.map Prod.fst) (s2.map Prod.fst) ∧ v = subAt s1 s2 d := by
  unfold pandasSub
  rw [List.mem_map]
  constructor
  · rintro ⟨x, hx, hxe⟩
    injection hxe with e1 e2
    subst e1
    exact ⟨hx, e2.symm⟩
  · rintro ⟨hd, rfl⟩
    exact ⟨d, hd, rfl⟩

/-! ### Claims about the stationarity evaluator -/

theorem runPairTests_ok (kA kP : List ℚ → ℚ × ℚ) (s : List ℚ)
    (h : isConstantSeries s = false) :
    runPairTests kA kP s =
      Except.ok (PairReport.mk (kA s).1 (kA s).2 (isStationary (kA s).2)
        (kP s).1 (kP s).2 (isStationary (kP s).2)) := by
  unfold runPairTests adf_test phillips_perron_test unitRootRoutine
  simp [h]

/-- C1: for every spread and every pair of test kernels, whenever the testing
block completes, each test's verdict is stationary exactly when that test's
p-value is strictly below the threshold; the rule is the same strict comparison
`p < t` for both the ADF and Phillips-Perron tests, instantiated at the
configured threshold, whose value is 0.30. -/
theorem C1_verdict_rule (kA kP : List ℚ → ℚ × ℚ) (s : List ℚ) (rep : PairReport)
    (h : runPairTests kA kP s = Except.ok rep) :
    (rep.adfVerdict = true ↔ rep.adfPvalue < threshold) ∧
    (rep.ppVerdict = true ↔ rep.ppPvalue < threshold) ∧
    (∀ t p, verdictAt t p = true ↔ p < t) ∧
    isStationary = verdictAt threshold ∧
    threshold = 3 / 10 := by
  unfold runPairTests at h
  split at h
  · cases h
  · split at h
    · cases h
    · rename_i sA pA hA sP pP hP
      injection h with h
      subst h
      refine ⟨?_, ?_, ?_, rfl, rfl⟩
      · simp [isStationary]
      · simp [isStationary]
      · intro t p
        simp [verdictAt]

/-- C1 witness: a concrete successful run (p-value 1/10 for both tests) on the
non-degenerate spread [0, 1]. -/
theorem C1_witness :
    ((PairReport.mk 0 (1 / 10) true 0 (1 / 10) true).adfVerdict = true ↔
      (PairReport.mk 0 (1 / 10) true 0 (1 / 10) true).adfPvalue < threshold) ∧
    threshold = 3 / 10 := by
  have h := C1_verdict_rule (constKernel (1 / 10)) (constKernel (1 / 10)) [0, 1]
    (PairReport.mk 0 (1 / 10) true 0 (1 / 10) true)
    (by rw [runPairTests_ok _ _ _ (by norm_num [isConstantSeries])]
        norm_num [constKernel, isStationary, threshold])
  exact ⟨h.1, h.2.2.2.2⟩

/-- C5: on a degenerate (zero-variance, constant) spread both the ADF and the
Phillips-Perron routines fail with the NonComputableStatistic error, and the
error is surfaced to the caller (the run aborts with it) rather than being
defaulted to a verdict. -/
theorem C5_degenerate_spread (kA kP : List ℚ → ℚ × ℚ) (s : List ℚ)
    (h : isConstantSeries s = true) :
    adf_test kA s = Except.error (UnitRootError.nonComputableStatistic TestName.adf) ∧
    phillips_perron_test kP s =
      Except.error (UnitRootError.nonComputableStatistic TestName.pp) ∧
    runPairTests kA kP s =
      Except.error (UnitRootError.nonComputableStatistic TestName.adf) := by
  have hA : adf_test kA s =
      Except.error (UnitRootError.nonComputableStatistic TestName.adf) := by
    simp [adf_test, unitRootRoutine, h]
  have hP : phillips_perron_test kP s =
      Except.error (UnitRootError.nonComputableStatistic TestName.pp) := by
    simp [phillips_perron_test, unitRootRoutine, h]
  refine ⟨hA, hP, ?_⟩
  unfold runPairTests
  rw [hA]

/-- C5 witness: the constant-zero spread of length five. -/
theorem C5_witness :
    adf_test (constKernel 0) [0, 0, 0, 0, 0] =
      Except.error (UnitRootError.nonComputableStatistic TestName.adf) ∧
    phillips_perron_test (constKernel 0) [0, 0, 0, 0, 0] =
      Except.error (UnitRootError.nonComputableStatistic TestName.pp) ∧
    runPairTests (constKernel 0) (constKernel 0) [0, 0, 0, 0, 0] =
      Except.error (UnitRootError.nonComputableStatistic TestName.adf) :=
  C5_degenerate_spread (constKernel 0) (constKernel 0) [0, 0, 0, 0, 0]
    (by norm_num [isConstantSeries])

/-- C6 counterexample: on the constant-zero spread the ADF routine raises, the
script aborts on that unhandled exception before ever reaching the
Phillips-Perron call, so the finished run contains no Phillips-Perron outcome at
all — contradicting the claim that one test's failure does not prevent the other
from running and producing its own result or error. -/
theorem C6_counterexample :
    ppOutcome (runPairTests (constKernel 0) (constKernel 0) [0, 0, 0, 0]) = none := by
  rfl

/-- C6 amended: the two tests are NOT isolated — the script runs them
sequentially with no exception handling, so when the ADF routine fails on a
degenerate spread the whole run aborts with the ADF error and the
Phillips-Perron test never runs (no Phillips-Perron outcome is produced);
Phillips-Perron runs only when the ADF test succeeds. -/
theorem C6_amended_no_isolation (kA kP : List ℚ → ℚ × ℚ) (s : List ℚ)
    (h : isConstantSeries s = true) :
    runPairTests kA kP s =
      Except.error (UnitRootError.nonComputableStatistic TestName.adf) ∧
    ppOutcome (runPairTests kA kP s) = none := by
  have hrun : runPairTests kA kP s =
      Except.error (UnitRootError.nonComputableStatistic TestName.adf) := by
    unfold runPairTests adf_test unitRootRoutine
    simp [h]
  exact ⟨hrun, by rw [hrun]; rfl⟩

/-- C6 amended witness: the constant-zero spread of length three. -/
theorem C6_amended_witness :
    runPairTests (constKernel 0) (constKernel 1) [0, 0, 0] =
      Except.error (UnitRootError.nonComputableStatistic TestName.adf) ∧
    ppOutcome (runPairTests (constKernel 0) (constKernel 1) [0, 0, 0]) = none :=
  C6_amended_no_isolation (constKernel 0) (constKernel 1) [0, 0, 0]
    (by norm_num [isConstantSeries])

/-- C7: the verdict rule is monotone in the threshold — if a p-value passes the
stricter (lower) threshold it also passes any looser (higher) one, so lowering
the threshold can only turn stationary verdicts into non-stationary ones, never
the reverse; and the script's verdict is this rule at the 0.30 threshold. -/
theorem C7_threshold_monotone (p t1 t2 : ℚ) (hlt : t1 < t2)
    (h1 : verdictAt t1 p = true) :
    verdictAt t2 p = true ∧ isStationary p = verdictAt threshold p := by
  constructor
  · simp only [verdictAt, decide_eq_true_eq] at h1 ⊢
    exact lt_trans h1 hlt
  · rfl

/-- C7 witness: p-value 1/100 is stationary at threshold 0.05 and hence also at
0.30. -/
theorem C7_witness :
    verdictAt (3 / 10) (1 / 100) = true ∧
      isStationary (1 / 100) = verdictAt threshold (1 / 100) :=
  C7_threshold_monotone (1 / 100) (1 / 20) (3 / 10) (by norm_num)
    (by simp only [verdictAt, decide_eq_true_eq]; norm_num)

/-- C8: the evaluation is deterministic — the testing block is a pure function
of the spread (the script draws no randomness and reads no hidden state), so two
runs on the same spread produce the same statistics, p-values and verdicts:
any two results of running the block on one spread are equal. -/
theorem C8_deterministic (kA kP : List ℚ → ℚ × ℚ) (s : List ℚ)
    (r1 r2 : Except UnitRootError PairReport)
    (h1 : runPairTests kA kP s = r1) (h2 : runPairTests kA kP s = r2) : r1 = r2 := by
  rw [← h1, ← h2]

/-- C8 witness: two runs on the spread [0, 1] with the zero kernel agree. -/
theorem C8_witness :
    (Except.ok (PairReport.mk 0 0 true 0 0 true) : Except UnitRootError PairReport) =
      Except.ok (PairReport.mk 0 0 true 0 0 true) :=
  C8_deterministic (constKernel 0) (constKernel 0) [0, 1] _ _
    (by rw [runPairTests_ok _ _ _ (by norm_num [isConstantSeries])]
        norm_num [constKernel, isStationary, threshold])
    (by rw [runPairTests_ok _ _ _ (by norm_num [isConstantSeries])]
        norm_num [constKernel, isStationary, threshold])

/-- C10: when a p-value equals the threshold 0.30 exactly, the strict comparison
fails and the non-stationary branch is taken for both tests: a run in which both
tests return p-value 3/10 yields a false verdict for both. -/
theorem C10_boundary_pvalue :
    isStationary (3 / 10) = false ∧
    runPairTests (constKernel (3 / 10)) (constKernel (3 / 10)) [0, 1] =
      Except.ok (PairReport.mk 0 (3 / 10) false 0 (3 / 10) false) := by
  constructor
  · simp only [isStationary, threshold, decide_eq_false_iff_not]
    norm_num
  · rw [runPairTests_ok _ _ _ (by norm_num [isConstantSeries])]
    norm_num [constKernel, isStationary, threshold]

/-! ### Claims about the spread construction -/

/-- C3: for two non-empty price series with identical (strictly ascending) date
indices, the spread `stock1 - stock2` has the same length and the same date
index as the inputs, and its i-th entry carries the i-th date together with the
value A[i] - B[i]. -/
theorem C3_identical_dates (s1 s2 : PriceSeries)
    (hk : s1.map Prod.fst = s2.map Prod.fst)
    (hs : List.Chain' (· < ·) (s1.map Prod.fst))
    (_hne : s1 ≠ []) :
    (pandasSub s1 s2).length = s1.length ∧
    (pandasSub s1 s2).map Prod.fst = s1.map Prod.fst ∧
    ∀ (i : Nat) (a1 a2 : Nat × ℚ), s1[i]? = some a1 → s2[i]? = some a2 →
      (pandasSub s1 s2)[i]? = some (a1.1, some (a1.2 - a2.2)) := by
  have hnd1 : (s1.map Prod.fst).Nodup := nodup_of_chain'_lt _ hs
  have hnd2 : (s2.map Prod.fst).Nodup := hk ▸ hnd1
  have hU : unionDates (s1.map Prod.fst) (s2.map Prod.fst) = s1.map Prod.fst := by
    rw [← hk]
    exact unionDates_of_subset _ _ (fun d hd => hd)
  refine ⟨?_, ?_, ?_⟩
  · unfold pandasSub
    rw [hU, List.length_map, List.length_map]
  · rw [pandasSub_keys, hU]
  · intro i a1 a2 h1 h2
    have hm1 : a1 ∈ s1 := List.getElem?_mem h1
    have hm2 : a2 ∈ s2 := List.getElem?_mem h2
    have hfst : a1.1 = a2.1 := by
      have hcg := congrArg (fun l => l[i]?) hk
      simp only [List.getElem?_map, h1, h2, Option.map_some'] at hcg
      exact Option.some_injective _ hcg
    have hsub : subAt s1 s2 a1.1 = some (a1.2 - a2.2) := by
      apply subAt_eq_some s1 s2 a1.1 a1.2 a2.2 hnd1 hnd2
      · exact hm1
      · rw [hfst]
        exact hm2
    unfold pandasSub
    rw [hU]
    simp only [List.getElem?_map, h1, Option.map_some']
    rw [hsub]

/-- C3 witness: two aligned two-day series; the spread keeps length 2 and its
first entry is date 1 with value 5 - 2. -/
theorem C3_witness :
    (pandasSub [((1 : Nat), (5 : ℚ)), (2, 9)] [(1, 2), (2, 3)]).length =
      ([((1 : Nat), (5 : ℚ)), (2, 9)] : PriceSeries).length ∧
    (pandasSub [((1 : Nat), (5 : ℚ)), (2, 9)] [(1, 2), (2, 3)])[0]? =
      some (1, some ((5 : ℚ) - 2)) := by
  have h := C3_identical_dates [((1 : Nat), (5 : ℚ)), (2, 9)] [(1, 2), (2, 3)]
    rfl (by simp [List.chain'_cons, List.chain'_singleton]) (by simp)
  exact ⟨h.1, h.2.2 0 (1, 5) (1, 2) rfl rfl⟩

/-- C2 counterexample: two series over date sets {0, 1} and {1, 2} share exactly
one date, yet the spread `stock1 - stock2` has three entries, not one — pandas
keeps every date of either operand, so the claimed inner-join invariant
(length = number of common dates) is false on the code. -/
theorem C2_counterexample :
    (pandasSub [((0 : Nat), (1 : ℚ)), (1, 2)] [(1, 5), (2, 7)]).length = 3 ∧
    (([((0 : Nat), (1 : ℚ)), (1, 2)].map Prod.fst).filter
      (fun d => ([((1 : Nat), (5 : ℚ)), (2, 7)].map Prod.fst).contains d)).length = 1 ∧
    (3 : Nat) ≠ 1 :=
  ⟨rfl, rfl, by decide⟩

/-- C2 amended: building the spread aligns the two series by date with
OUTER-join semantics — the spread's date index is the sorted union of the two
date sets, each date present in both series carries price1 - price2, and each
date present in only one series survives with a missing (NaN) value instead of
being dropped. -/
theorem C2_amended_outer_join (s1 s2 : PriceSeries)
    (h1 : List.Chain' (· < ·) (s1.map Prod.fst))
    (h2 : List.Chain' (· < ·) (s2.map Prod.fst))
    (_hne1 : s1 ≠ []) (_hne2 : s2 ≠ [])
    (_hdiff : s1.map Prod.fst ≠ s2.map Prod.fst) :
    List.Chain' (· < ·) ((pandasSub s1 s2).map Prod.fst) ∧
    (∀ d, d ∈ (pandasSub s1 s2).map Prod.fst ↔
      d ∈ s1.map Prod.fst ∨ d ∈ s2.map Prod.fst) ∧
    (∀ d a b, (d, a) ∈ s1 → (d, b) ∈ s2 → (d, some (a - b)) ∈ pandasSub s1 s2) ∧
    (∀ d v, (d, v) ∈ pandasSub s1 s2 → d ∉ s1.map Prod.fst → v = none) ∧
    (∀ d v, (d, v) ∈ pandasSub s1 s2 → d ∉ s2.map Prod.fst → v = none) := by
  have hnd1 := nodup_of_chain'_lt _ h1
  have hnd2 := nodup_of_chain'_lt _ h2
  refine ⟨?_, ?_, ?_, ?_, ?_⟩
  · rw [pandasSub_keys]
    exact chain'_unionDates _ _ h2
  · intro d
    rw [pandasSub_keys]
    exact mem_unionDates d _ _
  · intro d a b ha hb
    rw [mem_pandasSub_iff]
    refine ⟨?_, (subAt_eq_some s1 s2 d a b hnd1 hnd2 ha hb).symm⟩
    rw [mem_unionDates]
    exact Or.inl (List.mem_map_of_mem Prod.fst ha)
  · intro d v hv hd
    rcases (mem_pandasSub_iff s1 s2 d v).mp hv with ⟨_, rfl⟩
    exact subAt_eq_none_left s1 s2 d hd
  · intro d v hv hd
    rcases (mem_pandasSub_iff s1 s2 d v).mp hv with ⟨_, rfl⟩
    exact subAt_eq_none_right s1 s2 d hd

/-- C2 amended witness: the series over {0, 1} and {1, 2}; the spread's index is
strictly ascending and the common date 1 carries the subtraction 2 - 5. -/
theorem C2_amended_witness :
    List.Chain' (· < ·)
      ((pandasSub [((0 : Nat), (1 : ℚ)), (1, 2)] [(1, 5), (2, 7)]).map Prod.fst) ∧
    ((1 : Nat), some ((2 : ℚ) - 5)) ∈
      pandasSub [((0 : Nat), (1 : ℚ)), (1, 2)] [(1, 5), (2, 7)] := by
  have h := C2_amended_outer_join [((0 : Nat), (1 : ℚ)), (1, 2)] [(1, 5), (2, 7)]
    (by simp [List.chain'_cons, List.chain'_singleton])
    (by simp [List.chain'_cons, List.chain'_singleton]) (by simp) (by simp) (by decide)
  exact ⟨h.1, h.2.2.1 1 2 5 (by norm_num) (by norm_num)⟩

/-- C4 counterexample: on two non-empty series with no common date the code does
not fail at all — there is no EmptyIntersectionError anywhere in the script —
and `stock1 - stock2` yields a two-entry spread whose every value is missing. -/
theorem C4_counterexample :
    pandasSub [((1 : Nat), (10 : ℚ))] [(2, 5)] = [(1, none), (2, none)] := rfl

/-- C4 amended: for two non-empty price series sharing no dates, building the
spread raises no error: it produces a spread over the union of the two date
sets (length = sum of the lengths) in which every value is missing (NaN). -/
theorem C4_amended_disjoint (s1 s2 : PriceSeries)
    (hnd1 : (s1.map Prod.fst).Nodup)
    (hdisj : ∀ d, d ∈ s1.map Prod.fst → d ∉ s2.map Prod.fst)
    (_hne1 : s1 ≠ []) (_hne2 : s2 ≠ []) :
    (pandasSub s1 s2).length = s1.length + s2.length ∧
    ∀ p ∈ pandasSub s1 s2, p.2 = none := by
  constructor
  · unfold pandasSub
    rw [List.length_map, length_unionDates_disjoint _ _ hnd1 hdisj, List.length_map,
      List.length_map]
  · intro p hp
    obtain ⟨d, v⟩ := p
    rcases (mem_pandasSub_iff s1 s2 d v).mp hp with ⟨hd, rfl⟩
    by_cases hmem : d ∈ s1.map Prod.fst
    · exact subAt_eq_none_right s1 s2 d (hdisj d hmem)
    · exact subAt_eq_none_left s1 s2 d hmem

/-- C4 amended witness: the singleton series at dates 1 and 2. -/
theorem C4_amended_witness :
    (pandasSub [((1 : Nat), (10 : ℚ))] [(2, 5)]).length =
      ([((1 : Nat), (10 : ℚ))] : PriceSeries).length +
        ([((2 : Nat), (5 : ℚ))] : PriceSeries).length ∧
    ((1 : Nat), (none : Option ℚ)).2 = none := by
  have h := C4_amended_disjoint [((1 : Nat), (10 : ℚ))] [(2, 5)] (by decide)
    (by decide) (by simp) (by simp)
  refine ⟨h.1, h.2 (1, none) ?_⟩
  have e : pandasSub [((1 : Nat), (10 : ℚ))] [(2, 5)] = [(1, none), (2, none)] := rfl
  rw [e]
  simp

/-! ### Claim about the indicator enrichment -/

theorem getCol_setCol_ne (df : DataFrame) (n c : ColName) (v : PriceSeries)
    (h : c ≠ n) : getCol (setCol df n v) c = getCol df c := by
  simp [getCol, setCol, h]

theorem fetch_preserves_nonindicator (lib : IndicatorLib) (raw : DataFrame)
    (c : ColName) (hc : c ∉ indicatorCols) :
    getCol (fetch_stock_data lib raw) c = getCol raw c := by
  simp only [indicatorCols, List.mem_cons, List.not_mem_nil, or_false, not_or] at hc
  obtain ⟨h1, h2, h3, h4, h5, h6, h7, h8, h9, h10⟩ := hc
  simp only [fetch_stock_data]
  rw [getCol_setCol_ne _ _ _ _ h10, getCol_setCol_ne _ _ _ _ h9,
    getCol_setCol_ne _ _ _ _ h8, getCol_setCol_ne _ _ _ _ h7,
    getCol_setCol_ne _ _ _ _ h6, getCol_setCol_ne _ _ _ _ h5,
    getCol_setCol_ne _ _ _ _ h4, getCol_setCol_ne _ _ _ _ h3,
    getCol_setCol_ne _ _ _ _ h2, getCol_setCol_ne _ _ _ _ h1]

/-- C9: the indicator enrichment in `fetch_stock_data` only assigns the ten new
indicator columns and never writes to Close (or any other non-indicator
column), so the spread computed from the enriched frames' Close columns equals
the spread computed from the raw closing prices alone. -/
theorem C9_enrichment_preserves_close (lib : IndicatorLib) (raw1 raw2 : DataFrame)
    (c : ColName) (hc : c ∉ indicatorCols) :
    getCol (fetch_stock_data lib raw1) c = getCol raw1 c ∧
    pandasSub (getCol (fetch_stock_data lib raw1) ColName.close)
        (getCol (fetch_stock_data lib raw2) ColName.close) =
      pandasSub (getCol raw1 ColName.close) (getCol raw2 ColName.close) := by
  refine ⟨fetch_preserves_nonindicator lib raw1 c hc, ?_⟩
  rw [fetch_preserves_nonindicator lib raw1 ColName.close (by decide),
    fetch_preserves_nonindicator lib raw2 ColName.close (by decide)]

/-- C9 witness: a concrete one-row frame enriched with the trivial indicator
library keeps its Close column and its self-spread. -/
theorem C9_witness :
    getCol (fetch_stock_data emptyIndicatorLib oneRowFrame) ColName.close =
      getCol oneRowFrame ColName.close ∧
    pandasSub (getCol (fetch_stock_data emptyIndicatorLib oneRowFrame) ColName.close)
        (getCol (fetch_stock_data emptyIndicatorLib oneRowFrame) ColName.close) =
      pandasSub (getCol oneRowFrame ColName.close) (getCol oneRowFrame ColName.close) :=
  C9_enrichment_preserves_close emptyIndicatorLib oneRowFrame oneRowFrame ColName.close
    (by decide)

end MLAlgo
